import Mathlib

/-!
Shallow embedding of the SaberVM bytecode verifier (`src/verify.rs`) and the
data model it uses.  The enum/struct declarations that `verify.rs` compiles
against live in a header file that is present in `src/` only as an earlier
draft (`src/header.rs`, which still carries a capability-set data model that
`verify.rs` no longer uses); the shapes below are therefore reconstructed
from their uses in `verify.rs` itself, which determine them completely.

Stacks (`Vec` in Rust, pushed/popped at the end) are represented as Lean
lists with the TOP of the stack at the HEAD: Rust `v.push(x)` is `x :: v`,
`v.pop()` matches on the head, and `v[v.len() - 1 - j]` (the j-th element
from the top) is `v.get? j`.
-/

namespace SaberVM

/-- Variable identifier: `Id(label, counter)` (a pair of integers in the
source; labels and counters are non-negative). -/
structure Id where
  label : Nat
  count : Nat
deriving DecidableEq

/-- Region: `struct Region { unique: bool, id: Id }`, as used throughout
`verify.rs` (`r.unique`, `r.id`). -/
structure Region where
  unique : Bool
  id : Id
deriving DecidableEq

/-- Kinds expected by compile-time opcodes (`Kind::Type`, `Kind::Region`,
`Kind::Size` as used in `verify.rs` error constructions). -/
inductive Kind where
  | region
  | type
  | size
deriving DecidableEq

/-- The type grammar, exactly the `Type` enum `verify.rs` pattern-matches on:
`I32`, `Handle(Region)`, `Tuple(Vec<(bool, Type)>)`, `Ptr(Box<Type>, Region)`,
`Var(Id, size)`, `Func(Vec<Type>)`, `Exists(Id, size, Box<Type>)`,
`Forall(Id, size, Box<Type>)`, `ForallRegion(Region, Box<Type>, Vec<Region>)`.
Note: this draft's `Func` carries only an argument list, no capability set. -/
inductive Ty where
  | i32
  | handle (r : Region)
  | tuple (ts : List (Bool × Ty))
  | ptr (t : Ty) (r : Region)
  | var (id : Id) (repr : Nat)
  | func (args : List Ty)
  | exists_ (id : Id) (s : Nat) (t : Ty)
  | forall_ (id : Id) (s : Nat) (t : Ty)
  | forallRegion (r : Region) (t : Ty) (captured : List Region)

/-- Compile-time stack values: `CTStackVal::Type | Region | Size`. -/
inductive CTStackVal where
  | type (t : Ty)
  | region (r : Region)
  | size (s : Nat)

/-- Open quantifier frames: `Quantification::Exist | Forall | Region`. -/
inductive Quantification where
  | exist (id : Id) (s : Nat)
  | forall_ (id : Id) (s : Nat)
  | region (r : Region)

/-- Source opcodes (`Op1`), exactly the variants `verify.rs` matches on. -/
inductive Op1 where
  | unique
  | handle
  | i32
  | tuple (n : Nat)
  | some_
  | all
  | rgn
  | end_
  | app
  | func (n : Nat)
  | ctGet (i : Nat)
  | size (s : Nat)
  | ptr
  | lced
  | unpack
  | get (i : Nat)
  | init (i : Nat)
  | malloc
  | proj (i : Nat)
  | call
  | print
  | lit (x : Int)
  | globalFunc (l : Nat)
  | halt
  | pack
  | newRgn
  | freeRgn
  | deref

/-- Elaborated opcodes (`Op2`), exactly the variants `verify.rs` emits. -/
inductive Op2 where
  | get (offset size : Nat)
  | init (offset size total : Nat)
  | initIP (offset size : Nat)
  | malloc (size : Nat)
  | alloca (size : Nat)
  | proj (offset size total : Nat)
  | projIP (offset size : Nat)
  | call
  | print
  | lit (x : Int)
  | globalFunc (l : Nat)
  | halt
  | newRgn
  | freeRgn
  | deref (s : Nat)

/-- Verification errors, exactly the `Error` variants `verify.rs` constructs. -/
inductive Error where
  | sizeError (pos : Nat) (op : Op1) (expected found : Nat)
  | typeErrorForallExpected (pos : Nat) (op : Op1) (t : Ty)
  | typeErrorForallRegionExpected (pos : Nat) (op : Op1) (t : Ty)
  | typeErrorFunctionExpected (pos : Nat) (op : Op1) (t : Ty)
  | typeErrorEmptyCTStack (pos : Nat) (op : Op1)
  | regionAccessError (pos : Nat) (op : Op1) (r : Region)
  | kindErrorBadApp (pos : Nat) (op : Op1) (v : CTStackVal)
  | kindError (pos : Nat) (op : Op1) (k : Kind) (v : CTStackVal)
  | typeErrorExistentialExpected (pos : Nat) (op : Op1) (t : Ty)
  | typeErrorEmptyStack (pos : Nat) (op : Op1)
  | typeErrorGetOutOfRange (pos : Nat) (i : Nat) (len : Nat)
  | typeErrorInitOutOfRange (pos : Nat) (i : Nat) (len : Nat)
  | typeErrorInitTypeMismatch (pos : Nat) (formal actual : Ty)
  | typeErrorDoubleInit (pos : Nat) (op : Op1) (i : Nat)
  | typeErrorTupleExpected (pos : Nat) (op : Op1) (t : Ty)
  | regionError (pos : Nat) (op : Op1) (r1 r2 : Region)
  | typeErrorMallocNonTuple (pos : Nat) (op : Op1) (t : Ty)
  | typeErrorRegionHandleExpected (pos : Nat) (op : Op1) (t : Ty)
  | typeErrorProjOutOfRange (pos : Nat) (i : Nat) (len : Nat)
  | typeErrorUninitializedRead (pos : Nat) (op : Op1) (i : Nat)
  | typeErrorNotEnoughRuntimeArgs (pos : Nat) (needed got : Nat)
  | typeErrorCallArgTypesMismatch (pos : Nat) (needed got : List Ty)
  | typeError (pos : Nat) (op : Op1) (expected found : Ty)
  | typeErrorMainHasArgs
  | uniquenessError (pos : Nat) (op : Op1) (r : Region)
  | typeErrorPtrExpected (pos : Nat) (op : Op1) (t : Ty)
  | typeErrorSpecificTypeVarExpected (pos : Nat) (op : Op1) (want got : Id)
  | typeErrorTypeVarExpected (pos : Nat) (op : Op1) (want : Id) (got : Ty)
  | typeErrorEmptyQuantificationStack (pos : Nat) (op : Op1)
  | typeErrorNonEmptyQuantificationStack (label : Nat)
  | typeErrorCTGetOutOfRange (pos : Nat) (i : Nat) (len : Nat)

/-- A forward declaration: `ForwardDec::Func(label, ops)`. -/
inductive ForwardDec where
  | func (label : Nat) (ops : List Op1)

/-- An unverified statement: `Stmt1::Func(label, ops)`. -/
inductive Stmt1 where
  | func (label : Nat) (ops : List Op1)

/-- A verified statement: `Stmt2::Func(label, type, verified_ops)`. -/
inductive Stmt2 where
  | func (label : Nat) (t : Ty) (ops : List Op2)

/-- Result of a Rust function that can return `Ok`, return `Err`, or panic
(`panic!`, `unwrap` on `None`, out-of-bounds indexing with overflow checks);
the third outcome is modelled by the `crash` constructor. -/
inductive VRes (α : Type) where
  | ok (a : α)
  | err (e : Error)
  | crash

mutual
/-- Modelled from the spec: `Type::size` is implemented in the repository's
current header, which is absent from `src/` (the draft `src/header.rs` in the
tree predates this type grammar).  Sizes follow spec section 4.3: `I32`, any
handle, any pointer-like type and a function value occupy one word, a
variable reports the size carried by its binder, a tuple is the sum of its
components; quantified types report the size of their bodies. -/
def Ty.size : Ty → Nat
  | .i32 => 1
  | .handle _ => 1
  | .ptr _ _ => 1
  | .func _ => 1
  | .var _ s => s
  | .tuple l => sizeFlagged l
  | .exists_ _ _ t => t.size
  | .forall_ _ _ t => t.size
  | .forallRegion _ t _ => t.size

/-- Sum of the component sizes of a tuple, ignoring the init flags. -/
def sizeFlagged : List (Bool × Ty) → Nat
  | [] => 0
  | (_, t) :: rest => t.size + sizeFlagged rest
end

/-- First-match association lookup on `Id` keys (the behaviour of
`HashMap::get` on the substitution environments, all of which have at most
one entry in `verify.rs`). -/
def lookupId {α : Type} (m : List (Id × α)) (i : Id) : Option α :=
  match m.find? (fun p => p.1 == i) with
  | some p => some p.2
  | none => none

/-- `substitute_r` (verify.rs lines 849-854): replace a region by its image
under `rsubs` when present. -/
def substitute_r (rs : List (Id × Region)) (r : Region) : Region :=
  match lookupId rs r.id with
  | some r2 => r2
  | none => r

mutual
/-- `substitute_t` (verify.rs lines 813-845).  The substitution environments
are `HashMap`s in the source; they are modelled as association lists of their
entries.  The `ForallRegion` case iterates the region environment
(`for (_, r) in rsubs`), an iteration whose order `HashMap` does not fix:
the parameter `rho` supplies that enumeration order (a permutation of the
entry list), so that run-to-run variation of the hash order is explicit. -/
def substitute_t (rho : List (Id × Region) → List (Id × Region))
    (ts : List (Id × Ty)) (rs : List (Id × Region)) : Ty → Ty
  | .i32 => .i32
  | .handle r => .handle (substitute_r rs r)
  | .tuple l => .tuple (substitute_t_pairs rho ts rs l)
  | .ptr t r => .ptr (substitute_t rho ts rs t) (substitute_r rs r)
  | .var id repr =>
      match lookupId ts id with
      | some new => new
      | none => .var id repr
  | .func args => .func (substitute_t_list rho ts rs args)
  | .exists_ id s t => .exists_ id s (substitute_t rho ts rs t)
  | .forall_ id s t => .forall_ id s (substitute_t rho ts rs t)
  | .forallRegion rv t captured =>
      .forallRegion rv (substitute_t rho ts rs t)
        (captured ++ (((rho rs).filter (fun p => p.2.unique)).map (fun p => p.2)))

/-- Componentwise substitution through a tuple's `(flag, type)` list
(`ts.iter().map(|(init, t)| (*init, substitute_t(..)))`). -/
def substitute_t_pairs (rho : List (Id × Region) → List (Id × Region))
    (ts : List (Id × Ty)) (rs : List (Id × Region)) :
    List (Bool × Ty) → List (Bool × Ty)
  | [] => []
  | (b, t) :: rest => (b, substitute_t rho ts rs t) :: substitute_t_pairs rho ts rs rest

/-- Componentwise substitution through a `Func` argument list. -/
def substitute_t_list (rho : List (Id × Region) → List (Id × Region))
    (ts : List (Id × Ty)) (rs : List (Id × Region)) : List Ty → List Ty
  | [] => []
  | t :: rest => substitute_t rho ts rs t :: substitute_t_list rho ts rs rest
end

mutual
/-- `type_eq` (verify.rs lines 857-898): alpha-equivalence.  `Forall` /
`Exists` / `ForallRegion` rename the second type's bound variable to the
first's via a one-entry substitution; `ForallRegion` ignores the captured
region lists.  The `Func` case zips the two argument lists WITHOUT a length
check (`ts1.iter().zip(ts2.iter()).all(..)` stops at the shorter list),
unlike the `Tuple` case which checks `ts1.len() == ts2.len()` first. -/
def type_eq (rho : List (Id × Region) → List (Id × Region)) : Ty → Ty → Bool
  | .i32, .i32 => true
  | .handle r1, .handle r2 => r1 == r2
  | .tuple ts1, .tuple ts2 =>
      ts1.length == ts2.length && tuple_components_eq rho ts1 ts2
  | .ptr t1 r1, .ptr t2 r2 => r1 == r2 && type_eq rho t1 t2
  | .var id1 repr1, .var id2 repr2 => id1 == id2 && repr1 == repr2
  | .func ts1, .func ts2 => func_args_eq rho ts1 ts2
  | .exists_ id1 repr1 t1, .exists_ id2 repr2 t2 =>
      repr1 == repr2 &&
        type_eq rho t1 (substitute_t rho [(id2, .var id1 repr1)] [] t2)
  | .forall_ id1 size1 body1, .forall_ id2 size2 body2 =>
      size1 == size2 &&
        type_eq rho body1 (substitute_t rho [(id2, .var id1 size1)] [] body2)
  | .forallRegion r1 body1 _, .forallRegion r2 body2 _ =>
      type_eq rho body1 (substitute_t rho [] [(r2.id, r1)] body2)
  | _, _ => false

/-- The `Tuple` component loop of `type_eq`: pairwise flag and type equality.
The case of a longer first list is unreachable under the length guard (the
source would `unwrap` a `None` there). -/
def tuple_components_eq (rho : List (Id × Region) → List (Id × Region)) :
    List (Bool × Ty) → List (Bool × Ty) → Bool
  | [], _ => true
  | _ :: _, [] => true
  | (b1, t1) :: r1, (b2, t2) :: r2 =>
      (b1 == b2 && type_eq rho t1 t2) && tuple_components_eq rho r1 r2

/-- The `Func` argument comparison of `type_eq`: `zip(..).all(..)`, which is
vacuously true past the end of the SHORTER list. -/
def func_args_eq (rho : List (Id × Region) → List (Id × Region)) :
    List Ty → List Ty → Bool
  | t1 :: r1, t2 :: r2 => type_eq rho t1 t2 && func_args_eq rho r1 r2
  | _, _ => true
end

/-- `handle_handle` (verify.rs lines 605-618): pop a region, push `Handle`. -/
def handle_handle (pos : Nat) (op : Op1) (ct : List CTStackVal) :
    Except Error (List CTStackVal) :=
  match ct with
  | .region r :: rest => .ok (.type (.handle r) :: rest)
  | ctval :: _ => .error (.kindError pos op .region ctval)
  | [] => .error (.typeErrorEmptyCTStack pos op)

/-- The pop loop shared by `handle_tuple` and `handle_func`: pop `n` types
off the compile-time stack, in pop order. -/
def popCTTypes (pos : Nat) (op : Op1) :
    Nat → List CTStackVal → Except Error (List Ty × List CTStackVal)
  | 0, ct => .ok ([], ct)
  | n + 1, ct =>
    match ct with
    | .type t :: rest =>
        match popCTTypes pos op n rest with
        | .ok (ts, ct2) => .ok (t :: ts, ct2)
        | .error e => .error e
    | ctval :: _ => .error (.kindError pos op .type ctval)
    | [] => .error (.typeErrorEmptyCTStack pos op)

/-- `handle_tuple` (verify.rs lines 620-636): pop `n` types, push a tuple
whose components are all flagged initialized. -/
def handle_tuple (n pos : Nat) (op : Op1) (ct : List CTStackVal) :
    Except Error (List CTStackVal) :=
  match popCTTypes pos op n ct with
  | .ok (ts, ct2) => .ok (.type (.tuple (ts.map (fun t => (true, t)))) :: ct2)
  | .error e => .error e

/-- `handle_func` (verify.rs lines 762-778): pop `n` types, push `Func`. -/
def handle_func (n pos : Nat) (op : Op1) (ct : List CTStackVal) :
    Except Error (List CTStackVal) :=
  match popCTTypes pos op n ct with
  | .ok (ts, ct2) => .ok (.type (.func ts) :: ct2)
  | .error e => .error e

/-- `handle_some` (verify.rs lines 638-657): pop a size, mint a fresh type
variable `Id(label, fresh_id)`, push it and open an `Exist` frame. -/
def handle_some (pos : Nat) (op : Op1) (ct : List CTStackVal) (fresh label : Nat)
    (qs : List Quantification) :
    Except Error (List CTStackVal × Nat × List Quantification) :=
  match ct with
  | .size s :: rest =>
      .ok (.type (.var ⟨label, fresh⟩ s) :: rest, fresh + 1, .exist ⟨label, fresh⟩ s :: qs)
  | ctval :: _ => .error (.kindError pos op .size ctval)
  | [] => .error (.typeErrorEmptyCTStack pos op)

/-- `handle_all` (verify.rs lines 659-678): like `handle_some` but opens a
`Forall` frame. -/
def handle_all (pos : Nat) (op : Op1) (ct : List CTStackVal) (fresh label : Nat)
    (qs : List Quantification) :
    Except Error (List CTStackVal × Nat × List Quantification) :=
  match ct with
  | .size s :: rest =>
      .ok (.type (.var ⟨label, fresh⟩ s) :: rest, fresh + 1, .forall_ ⟨label, fresh⟩ s :: qs)
  | ctval :: _ => .error (.kindError pos op .size ctval)
  | [] => .error (.typeErrorEmptyCTStack pos op)

/-- `handle_rgn` (verify.rs lines 680-696): mint a fresh region (unique iff
the `unique` flag is set), push it and open a `Region` frame.  It never
fails and never resets the flag. -/
def handle_rgn (uniqueFlag : Bool) (label fresh : Nat) (ct : List CTStackVal)
    (qs : List Quantification) :
    List CTStackVal × Nat × List Quantification :=
  let r : Region := { unique := uniqueFlag, id := ⟨label, fresh⟩ }
  (.region r :: ct, fresh + 1, .region r :: qs)

/-- `handle_end` (verify.rs lines 698-760): pop the open quantifier frame,
pop the closing body type, require the next compile-time slot to be exactly
the frame's bound variable (respectively bound region), and push the wrapped
quantified type. -/
def handle_end (pos : Nat) (op : Op1) (ct : List CTStackVal)
    (qs : List Quantification) :
    Except Error (List CTStackVal × List Quantification) :=
  match qs with
  | .exist id s :: qrest =>
    match ct with
    | .type t :: ctrest =>
      match ctrest with
      | .type (.var id2 _) :: ctrest2 =>
          if id == id2 then .ok (.type (.exists_ id s t) :: ctrest2, qrest)
          else .error (.typeErrorSpecificTypeVarExpected pos op id id2)
      | .type t2 :: _ => .error (.typeErrorTypeVarExpected pos op id t2)
      | ctval :: _ => .error (.kindError pos op .type ctval)
      | [] => .error (.typeErrorEmptyCTStack pos op)
    | ctval :: _ => .error (.kindError pos op .type ctval)
    | [] => .error (.typeErrorEmptyCTStack pos op)
  | .forall_ id s :: qrest =>
    match ct with
    | .type t :: ctrest =>
      match ctrest with
      | .type (.var id2 _) :: ctrest2 =>
          if id == id2 then .ok (.type (.forall_ id s t) :: ctrest2, qrest)
          else .error (.typeErrorSpecificTypeVarExpected pos op id id2)
      | .type t2 :: _ => .error (.typeErrorTypeVarExpected pos op id t2)
      | ctval :: _ => .error (.kindError pos op .type ctval)
      | [] => .error (.typeErrorEmptyCTStack pos op)
    | ctval :: _ => .error (.kindError pos op .type ctval)
    | [] => .error (.typeErrorEmptyCTStack pos op)
  | .region r :: qrest =>
    match ct with
    | .type t :: ctrest =>
      match ctrest with
      | .region r2 :: ctrest2 =>
          if r.id == r2.id then .ok (.type (.forallRegion r t []) :: ctrest2, qrest)
          else .error (.regionError pos op r r2)
      | ctval :: _ => .error (.kindError pos op .region ctval)
      | [] => .error (.typeErrorEmptyCTStack pos op)
    | ctval :: _ => .error (.kindError pos op .type ctval)
    | [] => .error (.typeErrorEmptyCTStack pos op)
  | [] => .error (.typeErrorEmptyQuantificationStack pos op)

/-- `Vec` indexing from the bottom of a top-first list: `v.get(k)` in Rust.
Returns `none` when `k` is out of range. -/
def vecGet {α : Type} (l : List α) (k : Nat) : Option α :=
  if k < l.length then l.get? (l.length - 1 - k) else none

/-- `handle_ctget` (verify.rs lines 780-794): copy the i-th-from-top
compile-time slot.  The index `compile_time_stack.len() - 1 - i` is computed
in `usize` arithmetic, which wraps modulo `2^64` in release builds when
`i >= len`; the wrap is modelled explicitly. -/
def handle_ctget (pos i : Nat) (ct : List CTStackVal) :
    Except Error (List CTStackVal) :=
  let idx := ((((ct.length : Int) - 1 - (i : Int)) % (2 ^ 64))).toNat
  match vecGet ct idx with
  | some v => .ok (v :: ct)
  | none => .error (.typeErrorCTGetOutOfRange pos i ct.length)

/-- `handle_ptr` (verify.rs lines 796-809): pop a type then a region, push
`Ptr`. -/
def handle_ptr (pos : Nat) (op : Op1) (ct : List CTStackVal) :
    Except Error (List CTStackVal) :=
  match ct with
  | .type t :: rest =>
    match rest with
    | .region r :: rest2 => .ok (.type (.ptr t r) :: rest2)
    | ctval :: _ => .error (.kindError pos op .region ctval)
    | [] => .error (.typeErrorEmptyCTStack pos op)
  | ctval :: _ => .error (.kindError pos op .type ctval)
  | [] => .error (.typeErrorEmptyCTStack pos op)

/-- The argument pop loop of `handle_call`'s `Func` branch: pop `n` types
off the run-time stack, collecting them in pop order; `needTotal` is the
full argument count used in the error. -/
def popArgs (pos needTotal : Nat) :
    Nat → List Ty → List Ty → Except Error (List Ty × List Ty)
  | 0, acc, stack => .ok (acc, stack)
  | n + 1, acc, stack =>
    match stack with
    | t :: rest => popArgs pos needTotal n (acc ++ [t]) rest
    | [] => .error (.typeErrorNotEnoughRuntimeArgs pos needTotal acc.length)

/-- The `zip(..).all(..)` argument comparison of `handle_call` (both lists
always have equal length at the call site). -/
def argsMatch (rho : List (Id × Region) → List (Id × Region)) :
    List Ty → List Ty → Bool
  | t1 :: r1, t2 :: r2 => type_eq rho t1 t2 && argsMatch rho r1 r2
  | _, _ => true

/-- `handle_call` (verify.rs lines 537-603).  A `Func` pops and checks its
arguments; a `Forall` instantiates from a compile-time type of matching
size; a `ForallRegion` instantiates from a compile-time region, failing with
a region-access error when the BOUND region variable is unique and the
argument's id already occurs in the captured-region list.  Anything else is
a function-expected error. -/
def handle_call (rho : List (Id × Region) → List (Id × Region)) (pos : Nat) :
    Ty → List Ty → List CTStackVal → Except Error (List Ty × List CTStackVal)
  | .func args, stack, ct =>
    match popArgs pos args.length args.length [] stack with
    | .error e => .error e
    | .ok (present, stack2) =>
        if argsMatch rho present args then .ok (stack2, ct)
        else .error (.typeErrorCallArgTypesMismatch pos args present)
  | .forall_ var size body, stack, ct =>
    match ct with
    | .type t :: ctrest =>
        if t.size != size then .error (.sizeError pos .call size t.size)
        else handle_call rho pos (substitute_t rho [(var, t)] [] body) stack ctrest
    | ctval :: _ => .error (.kindError pos .call .type ctval)
    | [] => .error (.typeErrorEmptyCTStack pos .call)
  | .forallRegion var body captured, stack, ct =>
    match ct with
    | .region r :: ctrest =>
        if var.unique && captured.any (fun r2 => r2.id == r.id) then
          .error (.regionAccessError pos .call r)
        else handle_call rho pos (substitute_t rho [] [(var.id, r)] body) stack ctrest
    | ctval :: _ => .error (.kindError pos .call .region ctval)
    | [] => .error (.typeErrorEmptyCTStack pos .call)
  | t, _, _ => .error (.typeErrorFunctionExpected pos .call t)

/-- `setup_verifier` (verify.rs lines 900-919): peel the signature's
quantifiers onto a compile-time stack and return the parameter types.  The
source builds the parameter `Vec` as `param_ts.reverse()`; in the top-first
list representation that reversed vector IS the original list.  Any other
type shape panics. -/
def setup_verifier : Ty → VRes (List CTStackVal × List Ty)
  | .forall_ id s t =>
    match setup_verifier t with
    | .ok (ct, ps) => .ok (.type (.var id s) :: ct, ps)
    | .err e => .err e
    | .crash => .crash
  | .forallRegion r t _ =>
    match setup_verifier t with
    | .ok (ct, ps) => .ok (.region r :: ct, ps)
    | .err e => .err e
    | .crash => .crash
  | .func params => .ok ([], params)
  | _ => .crash

/-- The mutable state of `definition_pass` (verify.rs lines 90-120): the
compile-time stack, the symbolic run-time stack `stack_type`, the
quantification stack, the emitted opcodes `verified_ops` (in emission
order), the live region variables `rgn_vars` (in push order), the fresh-id
counter and the `next_region_is_unique` flag. -/
structure DPState where
  ct : List CTStackVal
  stack : List Ty
  qstack : List Quantification
  ops2 : List Op2
  rgn_vars : List Region
  fresh : Nat
  uniqueFlag : Bool

/-- Install a new compile-time stack produced by a ct-only handler. -/
def liftCT (s : DPState) : Except Error (List CTStackVal) → VRes DPState
  | .ok ct => .ok { s with ct := ct }
  | .error e => .err e

/-- Install new (ct, fresh, qstack) produced by `handle_some`/`handle_all`. -/
def liftSFQ (s : DPState) :
    Except Error (List CTStackVal × Nat × List Quantification) → VRes DPState
  | .ok (ct, f, q) => .ok { s with ct := ct, fresh := f, qstack := q }
  | .error e => .err e

/-- The `Op1::Get(i)` case of `definition_pass` (verify.rs lines 201-218):
bounds-check the run-time stack, copy the i-th-from-top type onto the top
and emit `Get(offset, size)` where `offset` is the sum of the sizes of the
`i` elements above the copied one. -/
def get_step (pos i : Nat) (s : DPState) : VRes DPState :=
  let len := s.stack.length
  if len = 0 then .err (.typeErrorEmptyStack pos (.get i))
  else if len - 1 < i then .err (.typeErrorGetOutOfRange pos i len)
  else
    match s.stack.get? i with
    | some t =>
        let offset := ((s.stack.take i).map Ty.size).sum
        .ok { s with stack := t :: s.stack, ops2 := s.ops2 ++ [.get offset t.size] }
    | none => .crash

/-- The closure `f` of the `Op1::Init(i)` case (verify.rs lines 222-261):
look up component `i`, fail out-of-range, fail on an already-initialized
component (`TypeErrorDoubleInit(pos, op, i)`), check the popped value's
type against the declared component type, and continue with `g` on
success.  (`mbval` is `None` only when the run-time stack held just the
container, which the outer match has already ruled out here.) -/
def init_f (rho : List (Id × Region) → List (Id × Region)) (pos i : Nat)
    (cts : List (Bool × Ty)) (mbval : Option Ty) (g : Ty → VRes DPState) :
    VRes DPState :=
  match cts.get? i with
  | none => .err (.typeErrorInitOutOfRange pos i cts.length)
  | some (false, formal) =>
    match mbval with
    | none => .err (.typeErrorEmptyStack pos (.init i))
    | some actual =>
        if type_eq rho formal actual then g actual
        else .err (.typeErrorInitTypeMismatch pos formal actual)
  | some (true, _) => .err (.typeErrorDoubleInit pos (.init i) i)

/-- The `Op1::Init(i)` case of `definition_pass` (verify.rs lines 219-302):
pop a value and a container; a direct tuple updates component `i` in place
and emits `Init(offset, size, total)`; a pointer-to-tuple first requires its
region's id to occur among the live region variables and emits
`InitIP(offset, size)`; anything else is a tuple-expected error. -/
def init_step (rho : List (Id × Region) → List (Id × Region)) (pos i : Nat)
    (s : DPState) : VRes DPState :=
  match s.stack with
  | [] => .err (.typeErrorEmptyStack pos (.init i))
  | [_] => .err (.typeErrorEmptyStack pos (.init i))
  | v :: tpl :: rest =>
    match tpl with
    | .tuple cts =>
        init_f rho pos i cts (some v) (fun actual =>
          let offset := ((cts.take i).map (fun p => p.2.size)).sum
          let tplSize := (cts.map (fun p => p.2.size)).sum
          .ok { s with stack := .tuple (cts.set i (true, actual)) :: rest,
                       ops2 := s.ops2 ++ [.init offset actual.size tplSize] })
    | .ptr bt r =>
      match bt with
      | .tuple cts =>
          if s.rgn_vars.all (fun r2 => r.id != r2.id) then
            .err (.regionAccessError pos (.init i) r)
          else
            init_f rho pos i cts (some v) (fun actual =>
              let offset := ((cts.take i).map (fun p => p.2.size)).sum
              .ok { s with stack := .ptr (.tuple (cts.set i (true, actual))) r :: rest,
                           ops2 := s.ops2 ++ [.initIP offset actual.size] })
      | t => .err (.typeErrorTupleExpected pos (.init i) t)
    | t => .err (.typeErrorTupleExpected pos (.init i) t)

/-- The `Op1::Malloc` case (verify.rs lines 303-348): a compile-time
`Ptr(tuple, r)` consumes a matching region handle, requires `r` to be live,
and pushes the pointer to the all-uninitialized tuple (`Malloc(size)`); a
compile-time bare tuple pushes the uninitialized tuple directly
(`Alloca(size)`).  Any other compile-time TYPE falls through to the generic
kind error of the source. -/
def malloc_step (pos : Nat) (s : DPState) : VRes DPState :=
  match s.ct with
  | .type (.ptr t r) :: ctrest =>
    match s.stack with
    | .handle r2 :: strest =>
        if r.id != r2.id then .err (.regionError pos .malloc r r2)
        else if s.rgn_vars.all (fun r3 => r.id != r3.id) then
          .err (.regionAccessError pos .malloc r)
        else
          let size := t.size
          match t with
          | .tuple cts =>
              .ok { s with ct := ctrest,
                           stack := .ptr (.tuple (cts.map (fun p => (false, p.2)))) r :: strest,
                           ops2 := s.ops2 ++ [.malloc size] }
          | t2 => .err (.typeErrorMallocNonTuple pos .malloc t2)
    | t2 :: _ => .err (.typeErrorRegionHandleExpected pos .malloc t2)
    | [] => .err (.typeErrorEmptyStack pos .malloc)
  | .type (.tuple cts) :: ctrest =>
      let t := Ty.tuple (cts.map (fun p => (false, p.2)))
      .ok { s with ct := ctrest, stack := t :: s.stack,
                   ops2 := s.ops2 ++ [.alloca t.size] }
  | ctval :: _ => .err (.kindError pos .malloc .type ctval)
  | [] => .err (.typeErrorEmptyCTStack pos .malloc)

/-- The `Op1::Proj(i)` case (verify.rs lines 349-414): pop a tuple (direct,
emitting `Proj(offset, size, total)`) or a pointer-to-tuple (region must be
live, emitting `ProjIP(offset, size)`); component `i` must exist and be
initialized. -/
def proj_step (pos i : Nat) (s : DPState) : VRes DPState :=
  match s.stack with
  | [] => .err (.typeErrorEmptyStack pos (.proj i))
  | tpl :: rest =>
    match tpl with
    | .tuple cts =>
        let total := (cts.map (fun p => p.2.size)).sum
        match cts.get? i with
        | none => .err (.typeErrorProjOutOfRange pos i cts.length)
        | some (true, t) =>
            let offset := ((cts.take i).map (fun p => p.2.size)).sum
            .ok { s with stack := t :: rest,
                         ops2 := s.ops2 ++ [.proj offset t.size total] }
        | some (false, _) => .err (.typeErrorUninitializedRead pos (.proj i) i)
    | .ptr bt r =>
        if s.rgn_vars.all (fun r2 => r.id != r2.id) then
          .err (.regionAccessError pos (.proj i) r)
        else
          match bt with
          | .tuple cts =>
            match cts.get? i with
            | none => .err (.typeErrorProjOutOfRange pos i cts.length)
            | some (true, t) =>
                let offset := ((cts.take i).map (fun p => p.2.size)).sum
                .ok { s with stack := t :: rest,
                             ops2 := s.ops2 ++ [.projIP offset t.size] }
            | some (false, _) => .err (.typeErrorUninitializedRead pos (.proj i) i)
          | t => .err (.typeErrorTupleExpected pos (.proj i) t)
    | t => .err (.typeErrorTupleExpected pos (.proj i) t)

/-- The `Op1::App` case (verify.rs lines 160-187): pop a compile-time value;
a type instantiates a `Forall` from the top of the run-time stack (sizes
must agree), a region instantiates a `ForallRegion` (failing with a
region-access error when the BOUND region variable is unique and the
argument's id occurs in the captured list), a size is a bad-app kind error. -/
def app_step (rho : List (Id × Region) → List (Id × Region)) (pos : Nat)
    (s : DPState) : VRes DPState :=
  match s.ct with
  | .type targ :: ctrest =>
    match s.stack with
    | .forall_ id sz body :: strest =>
        if sz != targ.size then .err (.sizeError pos .app sz targ.size)
        else
          .ok { s with
                ct := ctrest,
                stack := substitute_t rho [(id, targ)] [] body :: strest }
    | t :: _ => .err (.typeErrorForallExpected pos .app t)
    | [] => .err (.typeErrorEmptyCTStack pos .app)
  | .region rarg :: ctrest =>
    match s.stack with
    | .forallRegion rv body captured :: strest =>
        if rv.unique && captured.any (fun r2 => rarg.id == r2.id) then
          .err (.regionAccessError pos .app rarg)
        else
          .ok { s with
                ct := ctrest,
                stack := substitute_t rho [] [(rv.id, rarg)] body :: strest }
    | t :: _ => .err (.typeErrorForallRegionExpected pos .app t)
    | [] => .err (.typeErrorEmptyCTStack pos .app)
  | ctval :: _ => .err (.kindErrorBadApp pos .app ctval)
  | [] => .err (.typeErrorEmptyCTStack pos .app)

/-- The `Op1::Pack` case (verify.rs lines 444-487): pop the hidden value's
type from the run-time stack, the hidden type and the existential from the
compile-time stack; check the value against the freely instantiated body
and the size annotation, and push the existential back onto the run-time
stack. -/
def pack_step (rho : List (Id × Region) → List (Id × Region)) (pos : Nat)
    (s : DPState) : VRes DPState :=
  match s.stack with
  | [] => .err (.typeErrorEmptyStack pos .pack)
  | typeOfHidden :: strest =>
    match s.ct with
    | .type hiddenType :: ctrest =>
      match ctrest with
      | .type (.exists_ id sizeOfHidden existentialType) :: ctrest2 =>
          let unpackedType := substitute_t rho [(id, hiddenType)] [] existentialType
          if !(type_eq rho typeOfHidden unpackedType) then
            .err (.typeError pos .pack unpackedType typeOfHidden)
          else if sizeOfHidden != typeOfHidden.size then
            .err (.sizeError pos .pack sizeOfHidden typeOfHidden.size)
          else
            .ok { s with
                  ct := ctrest2,
                  stack := .exists_ id sizeOfHidden existentialType :: strest }
      | .type t :: _ => .err (.typeErrorExistentialExpected pos .pack t)
      | ctval :: _ => .err (.kindError pos .pack .type ctval)
      | [] => .err (.typeErrorEmptyCTStack pos .pack)
    | ctval :: _ => .err (.kindError pos .pack .type ctval)
    | [] => .err (.typeErrorEmptyCTStack pos .pack)

/-- The `Op1::Call` case (verify.rs lines 415-422): pop the callee type,
run `handle_call`, and emit `Call`. -/
def call_step (rho : List (Id × Region) → List (Id × Region)) (pos : Nat)
    (s : DPState) : VRes DPState :=
  match s.stack with
  | t :: strest =>
    match handle_call rho pos t strest s.ct with
    | .ok (stack2, ct2) => .ok { s with stack := stack2, ct := ct2,
                                        ops2 := s.ops2 ++ [.call] }
    | .error e => .err e
  | [] => .err (.typeErrorEmptyStack pos .call)

/-- First-match association lookup on labels (the signature table). -/
def lookupLabel (m : List (Nat × Ty)) (l : Nat) : Option Ty :=
  match m.find? (fun p => p.1 == l) with
  | some p => some p.2
  | none => none

/-- One iteration of the `definition_pass` opcode loop (verify.rs lines
122-529): the complete dispatch over `Op1`.  Note in particular that
`Op1::End` dispatches to `handle_rgn` exactly like `Op1::Rgn` does (source
lines 146-159), and that `Op1::Lced` and a missing `GlobalFunc` label panic. -/
def exec_op (rho : List (Id × Region) → List (Id × Region))
    (types : List (Nat × Ty)) (label pos : Nat) (op : Op1) (s : DPState) :
    VRes DPState :=
  match op with
  | .unique => .ok { s with uniqueFlag := true }
  | .handle => liftCT s (handle_handle pos .handle s.ct)
  | .i32 => .ok { s with ct := .type .i32 :: s.ct }
  | .tuple n => liftCT s (handle_tuple n pos (.tuple n) s.ct)
  | .some_ => liftSFQ s (handle_some pos .some_ s.ct s.fresh label s.qstack)
  | .all => liftSFQ s (handle_all pos .all s.ct s.fresh label s.qstack)
  | .rgn =>
      match handle_rgn s.uniqueFlag label s.fresh s.ct s.qstack with
      | (ct, f, q) => .ok { s with ct := ct, fresh := f, qstack := q }
  | .end_ =>
      match handle_rgn s.uniqueFlag label s.fresh s.ct s.qstack with
      | (ct, f, q) => .ok { s with ct := ct, fresh := f, qstack := q }
  | .app => app_step rho pos s
  | .func n => liftCT s (handle_func n pos (.func n) s.ct)
  | .ctGet i => liftCT s (handle_ctget pos i s.ct)
  | .lced => .crash
  | .unpack =>
    match s.ct with
    | .type (.exists_ _ _ t) :: ctrest => .ok { s with ct := .type t :: ctrest }
    | .type t :: _ => .err (.typeErrorExistentialExpected pos .unpack t)
    | ctval :: _ => .err (.kindError pos .unpack .type ctval)
    | [] => .err (.typeErrorEmptyCTStack pos .unpack)
  | .get i => get_step pos i s
  | .init i => init_step rho pos i s
  | .malloc => malloc_step pos s
  | .proj i => proj_step pos i s
  | .call => call_step rho pos s
  | .print =>
    match s.stack with
    | .i32 :: strest => .ok { s with stack := strest, ops2 := s.ops2 ++ [.print] }
    | t :: _ => .err (.typeError pos .print .i32 t)
    | [] => .err (.typeErrorEmptyStack pos .print)
  | .lit x => .ok { s with stack := .i32 :: s.stack, ops2 := s.ops2 ++ [.lit x] }
  | .globalFunc l =>
    match lookupLabel types l with
    | some t => .ok { s with stack := t :: s.stack, ops2 := s.ops2 ++ [.globalFunc l] }
    | none => .crash
  | .halt =>
    match s.stack with
    | .i32 :: strest => .ok { s with stack := strest, ops2 := s.ops2 ++ [.halt] }
    | t :: _ => .err (.typeError pos .halt .i32 t)
    | [] => .err (.typeErrorEmptyStack pos .halt)
  | .pack => pack_step rho pos s
  | .size n => .ok { s with ct := .size n :: s.ct }
  | .newRgn =>
      let id : Id := ⟨label, s.fresh⟩
      let r : Region := { unique := true, id := id }
      .ok { s with fresh := s.fresh + 1, rgn_vars := s.rgn_vars ++ [r],
                   stack := .handle r :: s.stack, ct := .region r :: s.ct,
                   ops2 := s.ops2 ++ [.newRgn] }
  | .freeRgn =>
    match s.stack with
    | .handle r :: strest =>
      match s.rgn_vars.find? (fun r2 => r.id == r2.id) with
      | some r2 =>
          if r2.unique then
            .ok { s with stack := strest,
                         rgn_vars := s.rgn_vars.filter (fun r3 => r3.id != r.id),
                         ops2 := s.ops2 ++ [.freeRgn] }
          else .err (.uniquenessError pos .freeRgn r)
      | none => .err (.regionAccessError pos .freeRgn r)
    | t :: _ => .err (.typeErrorRegionHandleExpected pos .freeRgn t)
    | [] => .err (.typeErrorEmptyStack pos .freeRgn)
  | .ptr => liftCT s (handle_ptr pos .ptr s.ct)
  | .deref =>
    match s.stack with
    | .ptr t r :: strest =>
        if s.rgn_vars.all (fun r2 => r.id != r2.id) then
          .err (.regionAccessError pos .deref r)
        else .ok { s with stack := t :: strest, ops2 := s.ops2 ++ [.deref t.size] }
    | t :: _ => .err (.typeErrorPtrExpected pos .deref t)
    | [] => .err (.typeErrorEmptyStack pos .deref)

/-- The `definition_pass` opcode loop, threading the byte position. -/
def run_ops (rho : List (Id × Region) → List (Id × Region))
    (types : List (Nat × Ty)) (label : Nat) :
    List Op1 → Nat → DPState → VRes DPState
  | [], _, s => .ok s
  | op :: rest, pos, s =>
    match exec_op rho types label pos op s with
    | .ok s2 => run_ops rho types label rest (pos + 1) s2
    | .err e => .err e
    | .crash => .crash

/-- `definition_pass` (verify.rs lines 90-535): look up the function's
signature (panicking when absent), seed the compile-time and run-time
stacks from it, collect the quantified region variables, run the body, and
require the quantification stack to be empty at the end. -/
def definition_pass (rho : List (Id × Region) → List (Id × Region))
    (types : List (Nat × Ty)) (stmt : Stmt1) (fresh : Nat) : VRes Stmt2 :=
  match stmt with
  | .func label ops =>
    match lookupLabel types label with
    | none => .crash
    | some myType =>
      match setup_verifier myType with
      | .err e => .err e
      | .crash => .crash
      | .ok (ct0, params) =>
        let ct := ct0.reverse
        let rgnVars := ct.reverse.filterMap (fun c =>
          match c with
          | .region r => some r
          | _ => none)
        let s0 : DPState :=
          { ct := ct, stack := params, qstack := [], ops2 := [],
            rgn_vars := rgnVars, fresh := fresh, uniqueFlag := false }
        match run_ops rho types label ops label s0 with
        | .err e => .err e
        | .crash => .crash
        | .ok s =>
            if s.qstack.length > 0 then
              .err (.typeErrorNonEmptyQuantificationStack label)
            else .ok (.func label myType s.ops2)

/-- One iteration of the `type_pass` opcode loop (verify.rs lines 46-83):
the signature pass handles only the constructor opcodes; here `Op1::End`
correctly dispatches to `handle_end`.  Any other opcode panics. -/
def tp_step (label pos : Nat) (op : Op1) (ct : List CTStackVal)
    (qs : List Quantification) (fresh : Nat) (uniqueFlag : Bool) :
    VRes (List CTStackVal × List Quantification × Nat × Bool) :=
  match op with
  | .unique => .ok (ct, qs, fresh, true)
  | .handle =>
    match handle_handle pos .handle ct with
    | .ok ct2 => .ok (ct2, qs, fresh, uniqueFlag)
    | .error e => .err e
  | .i32 => .ok (.type .i32 :: ct, qs, fresh, uniqueFlag)
  | .tuple n =>
    match handle_tuple n pos (.tuple n) ct with
    | .ok ct2 => .ok (ct2, qs, fresh, uniqueFlag)
    | .error e => .err e
  | .some_ =>
    match handle_some pos .some_ ct fresh label qs with
    | .ok (ct2, f, q) => .ok (ct2, q, f, uniqueFlag)
    | .error e => .err e
  | .all =>
    match handle_all pos .all ct fresh label qs with
    | .ok (ct2, f, q) => .ok (ct2, q, f, uniqueFlag)
    | .error e => .err e
  | .rgn =>
    match handle_rgn uniqueFlag label fresh ct qs with
    | (ct2, f, q) => .ok (ct2, q, f, uniqueFlag)
  | .end_ =>
    match handle_end pos .end_ ct qs with
    | .ok (ct2, q) => .ok (ct2, q, fresh, uniqueFlag)
    | .error e => .err e
  | .func n =>
    match handle_func n pos (.func n) ct with
    | .ok ct2 => .ok (ct2, qs, fresh, uniqueFlag)
    | .error e => .err e
  | .ctGet i =>
    match handle_ctget pos i ct with
    | .ok ct2 => .ok (ct2, qs, fresh, uniqueFlag)
    | .error e => .err e
  | .size n => .ok (.size n :: ct, qs, fresh, uniqueFlag)
  | .ptr =>
    match handle_ptr pos .ptr ct with
    | .ok ct2 => .ok (ct2, qs, fresh, uniqueFlag)
    | .error e => .err e
  | _ => .crash

/-- The `type_pass` opcode loop, threading the byte position. -/
def tp_loop (label : Nat) :
    List Op1 → Nat → List CTStackVal → List Quantification → Nat → Bool →
    VRes (List CTStackVal × List Quantification × Nat × Bool × Nat)
  | [], pos, ct, qs, fresh, uniqueFlag => .ok (ct, qs, fresh, uniqueFlag, pos)
  | op :: rest, pos, ct, qs, fresh, uniqueFlag =>
    match tp_step label pos op ct qs fresh uniqueFlag with
    | .ok (ct2, q2, f2, u2) => tp_loop label rest (pos + 1) ct2 q2 f2 u2
    | .err e => .err e
    | .crash => .crash

/-- `type_pass` (verify.rs lines 40-88): run the signature pass; at the end
the compile-time stack must hold exactly one type, which is returned as the
signature together with the FINAL BYTE POSITION `pos` (which `go` then
feeds onward as the next fresh-id counter).  Any other final stack panics. -/
def type_pass (fd : ForwardDec) (fresh : Nat) : VRes (Nat × Ty × Nat) :=
  match fd with
  | .func label ops =>
    match tp_loop label ops label [] [] fresh false with
    | .ok (ct, _, _, _, pos) =>
      match ct with
      | [.type t] => .ok (label, t, pos)
      | _ => .crash
    | .err e => .err e
    | .crash => .crash

/-- `HashMap::insert` on the signature table: overwrite or append. -/
def insertLabel (m : List (Nat × Ty)) (l : Nat) (t : Ty) : List (Nat × Ty) :=
  if m.any (fun p => p.1 == l) then
    m.map (fun p => if p.1 == l then (l, t) else p)
  else m ++ [(l, t)]

/-- The signature-phase loop of `go` (verify.rs lines 14-24): thread the
fresh-id value returned by each `type_pass` into the next. -/
def go_types : List ForwardDec → Nat → List (Nat × Ty) → VRes (List (Nat × Ty) × Nat)
  | [], fresh, types => .ok (types, fresh)
  | fd :: rest, fresh, types =>
    match type_pass fd fresh with
    | .ok (l, t, fresh2) => go_types rest fresh2 (insertLabel types l t)
    | .err e => .err e
    | .crash => .crash

/-- The body-phase loop of `go` (verify.rs lines 25-28): every
`definition_pass` receives the same final fresh-id value; the first error
short-circuits. -/
def go_defs (rho : List (Id × Region) → List (Id × Region))
    (types : List (Nat × Ty)) (fresh : Nat) : List Stmt1 → VRes (List Stmt2)
  | [] => .ok []
  | st :: rest =>
    match definition_pass rho types st fresh with
    | .ok s2 =>
      match go_defs rho types fresh rest with
      | .ok l => .ok (s2 :: l)
      | .err e => .err e
      | .crash => .crash
    | .err e => .err e
    | .crash => .crash

/-- The entry-function check of `go` (verify.rs lines 29-36): only a FIRST
statement whose signature is syntactically a bare `Func` is inspected; a
non-empty parameter list is the main-has-args error, and every other shape
(including quantifier-wrapped signatures) falls through silently. -/
def main_check : List Stmt2 → Option Error
  | .func _ (.func params) _ :: _ =>
      if params.length ≠ 0 then some .typeErrorMainHasArgs else none
  | _ => none

/-- `go` (verify.rs lines 10-38): run all signature passes from fresh-id 0,
then all body passes, then the entry-function check. -/
def go (rho : List (Id × Region) → List (Id × Region))
    (tds : List ForwardDec) (stmts : List Stmt1) : VRes (List Stmt2) :=
  match go_types tds 0 [] with
  | .err e => .err e
  | .crash => .crash
  | .ok (types, fresh) =>
    match go_defs rho types fresh stmts with
    | .err e => .err e
    | .crash => .crash
    | .ok vs =>
      match main_check vs with
      | some e => .err e
      | none => .ok vs

/-! The capability data model.  The draft `src/header.rs` in the tree
declares capabilities (`Owned(Region) | NotOwned(Region) | CapVar(Id) |
CapVarBounded(Id, CapabilityRef)` over `Region = RegionVar(Id) | Heap`),
but the `verify.rs` draft in the tree carries no capability sets (its
`Func` type has only an argument list), so the capability check that the
spec ascribes to `call` has no implementation under `src/`.  It is
modelled from the spec below. -/

/-- Region shape of the capability data model, as declared in
`src/header.rs`: a region variable identified by an `Id`, or `Heap`. -/
inductive HRegion where
  | regionVar (i : Id)
  | heap
deriving DecidableEq

/-- Capabilities as declared in `src/header.rs`; the bound of a bounded
capability variable is an opaque pool reference (an integer) there. -/
inductive Capability where
  | owned (r : HRegion)
  | notOwned (r : HRegion)
  | capVar (i : Id)
  | capVarBounded (i : Id) (c : Nat)
deriving DecidableEq

/-- Modelled from the spec: alpha-equivalence on capabilities.  Spec 4.2:
"For capability sets and regions: structural equality with `Heap = Heap`
and variables compared by Id" — i.e. structural equality of the values. -/
def cap_alpha_eq (c1 c2 : Capability) : Bool := c1 == c2

/-- Modelled from the spec: the subset check of `call`.  Spec 9: "Subset
check for `call` is: every required capability has an alpha-equivalent
occurrence in the active set." -/
def cap_subset (creq c : List Capability) : Bool :=
  creq.all (fun cr => c.any (fun ca => cap_alpha_eq cr ca))

/-- Modelled from the spec: the region/capability error class raised when a
required capability is missing (spec 7). -/
inductive CapCheckError where
  | capabilityMissing (creq c : List Capability)

/-- Modelled from the spec: the capability check performed by `call` after
all quantifiers of the popped function type have been instantiated.  Spec
4.6: "After all quantifiers peel, require `C_req ⊆ C` (every capability in
the required set is provided by the active set, pointwise by
alpha-equivalence)"; failure is a region/capability error.  This code is
missing from the `src/` draft of `verify.rs`, whose `Func` type carries no
capability set. -/
def call_cap_check (creq c : List Capability) : Except CapCheckError Unit :=
  if cap_subset creq c then .ok () else .error (.capabilityMissing creq c)

/-! Theorems settling the claims. -/

/-- C1: after all quantifiers of the popped function type have been
instantiated, the call check requires every capability of the callee's
required set to have an alpha-equivalent occurrence in the active set, and
fails with a region/capability error exactly when some required capability
is missing (spec-modelled: the check is absent from the `src/` draft of
`verify.rs`). -/
theorem C1_call_capability_subset (creq c : List Capability) :
    (call_cap_check creq c = .error (.capabilityMissing creq c) ↔
      ∃ cap ∈ creq, ∀ ca ∈ c, cap_alpha_eq cap ca = false) ∧
    (call_cap_check creq c = .ok () ↔
      ∀ cap ∈ creq, ∃ ca ∈ c, cap_alpha_eq cap ca = true) := by
  have hpos : cap_subset creq c = true ↔
      ∀ cap ∈ creq, ∃ ca ∈ c, cap_alpha_eq cap ca = true := by
    simp [cap_subset]
  have hneg : cap_subset creq c = false ↔
      ∃ cap ∈ creq, ∀ ca ∈ c, cap_alpha_eq cap ca = false := by
    simp [cap_subset, List.all_eq_false]
  cases hs : cap_subset creq c with
  | false =>
      simp only [call_cap_check, hs]
      rw [if_neg (by simp)]
      constructor
      · constructor
        · intro _
          exact hneg.mp hs
        · intro _
          rfl
      · constructor
        · intro h
          exact Except.noConfusion h
        · intro h
          have hc := hpos.mpr h
          rw [hs] at hc
          exact Bool.noConfusion hc
  | true =>
      simp only [call_cap_check, hs]
      rw [if_pos trivial]
      constructor
      · constructor
        · intro h
          exact Except.noConfusion h
        · intro hex
          have hc := hneg.mpr hex
          rw [hs] at hc
          exact Bool.noConfusion hc
      · constructor
        · intro _
          exact hpos.mp hs
        · intro _
          rfl

/-- C2: the claim fails on the code.  `type_eq`'s `Func` case compares
argument lists with `zip(..).all(..)` and no length check (unlike its
`Tuple` case), so the one-argument and two-argument function types below
are judged equal even though their argument lists have different lengths. -/
theorem C2_func_arity_ignored :
    type_eq (fun l => l) (.func [.i32]) (.func [.i32, .i32]) = true := rfl

/-- C4: the claim is right and the code is wrong in the body pass.  In
`definition_pass` the `Op1::End` arm calls `handle_rgn` (verify.rs lines
153-159), duplicating the `Op1::Rgn` arm: instead of closing the open
frame it mints a fresh region and pushes a new `Region` frame, so the body
`[size 1, some, ct_get 0, end]` (which per the claim's END semantics would
close the `Exist` frame and verify) ends with two open frames and fails.
The second conjunct evaluates `handle_end` — the handler the signature pass
uses — on the state reached just before the `end` opcode, showing it does
close the frame as the claim describes. -/
theorem C4_end_in_body_pass_mints_region :
    definition_pass (fun l => l) [(0, Ty.func [])]
        (Stmt1.func 0 [.size 1, .some_, .ctGet 0, .end_]) 0 =
      .err (.typeErrorNonEmptyQuantificationStack 0) ∧
    handle_end 3 .end_
        [.type (.var ⟨0, 0⟩ 1), .type (.var ⟨0, 0⟩ 1)] [.exist ⟨0, 0⟩ 1] =
      .ok ([.type (.exists_ ⟨0, 0⟩ 1 (.var ⟨0, 0⟩ 1))], []) :=
  ⟨rfl, rfl⟩

/-- C5: the claim fails on the code.  The entry function below has the
quantifier-wrapped signature `Forall a. Func(a)` with a NON-empty argument
list, yet `go` succeeds: the main-has-args check matches only a
syntactically bare `Func` signature. -/
theorem C5_quantified_main_not_checked :
    go (fun l => l)
        [ForwardDec.func 5 [.size 1, .all, .ctGet 0, .func 1, .end_]]
        [Stmt1.func 5 []] =
      .ok [Stmt2.func 5 (.forall_ ⟨5, 0⟩ 1 (.func [.var ⟨5, 0⟩ 1])) []] ∧
    go (fun l => l)
        [ForwardDec.func 5 [.size 1, .all, .ctGet 0, .func 1, .end_]]
        [Stmt1.func 5 []] ≠
      .err .typeErrorMainHasArgs := by
  refine ⟨rfl, ?_⟩
  intro h
  rw [show go (fun l => l)
        [ForwardDec.func 5 [.size 1, .all, .ctGet 0, .func 1, .end_]]
        [Stmt1.func 5 []] =
      .ok [Stmt2.func 5 (.forall_ ⟨5, 0⟩ 1 (.func [.var ⟨5, 0⟩ 1])) []] from rfl] at h
  exact VRes.noConfusion h

/-- C5 (amended): the main-has-args check fires exactly when the first
verified statement's signature is a syntactically bare `Func` with a
non-empty argument list; any other signature shape — including signatures
wrapped in quantifiers — is not checked at all. -/
theorem C5_main_check_bare_func_only (stmts : List Stmt2) :
    main_check stmts = some Error.typeErrorMainHasArgs ↔
      ∃ l ts ops rest, stmts = Stmt2.func l (Ty.func ts) ops :: rest ∧ ts ≠ [] := by
  constructor
  · intro h
    cases stmts with
    | nil => simp [main_check] at h
    | cons hd rest =>
      cases hd with
      | func l t ops =>
        cases t with
        | func params =>
            by_cases hp : params.length ≠ 0
            · refine ⟨l, params, ops, rest, rfl, ?_⟩
              intro he
              subst he
              simp at hp
            · simp [main_check, hp] at h
        | i32 => simp [main_check] at h
        | handle r => simp [main_check] at h
        | tuple ts => simp [main_check] at h
        | ptr t r => simp [main_check] at h
        | var i s => simp [main_check] at h
        | exists_ i s t => simp [main_check] at h
        | forall_ i s t => simp [main_check] at h
        | forallRegion r t cl => simp [main_check] at h
  · rintro ⟨l, ts, ops, rest, rfl, hne⟩
    have hl : ts.length ≠ 0 := by
      intro hz
      exact hne (List.eq_nil_of_length_eq_zero hz)
    simp [main_check, hl]

/-- C6: the claim fails on the code.  Here the region ARGUMENT is unique and
its id occurs in the captured-region list, while the quantifier's BOUND
variable is non-unique: per the claim this instantiation must fail with a
region-access error, but `App` succeeds, because the code tests the bound
variable's uniqueness (`r.unique` in `Some(Type::ForallRegion(r, t,
captured_rgns))`), not the argument's. -/
theorem C6_argument_uniqueness_not_checked :
    exec_op (fun l => l) [] 0 3 .app
        { ct := [.region { unique := true, id := ⟨9, 9⟩ }],
          stack := [.forallRegion { unique := false, id := ⟨1, 0⟩ } .i32
                      [{ unique := true, id := ⟨9, 9⟩ }]],
          qstack := [], ops2 := [], rgn_vars := [], fresh := 0, uniqueFlag := false } =
      .ok { ct := [], stack := [.i32], qstack := [], ops2 := [], rgn_vars := [],
            fresh := 0, uniqueFlag := false } ∧
    exec_op (fun l => l) [] 0 3 .app
        { ct := [.region { unique := true, id := ⟨9, 9⟩ }],
          stack := [.forallRegion { unique := false, id := ⟨1, 0⟩ } .i32
                      [{ unique := true, id := ⟨9, 9⟩ }]],
          qstack := [], ops2 := [], rgn_vars := [], fresh := 0, uniqueFlag := false } ≠
      .err (.regionAccessError 3 .app { unique := true, id := ⟨9, 9⟩ }) := by
  refine ⟨rfl, ?_⟩
  intro h
  rw [show exec_op (fun l => l) [] 0 3 .app
        { ct := [.region { unique := true, id := ⟨9, 9⟩ }],
          stack := [.forallRegion { unique := false, id := ⟨1, 0⟩ } .i32
                      [{ unique := true, id := ⟨9, 9⟩ }]],
          qstack := [], ops2 := [], rgn_vars := [], fresh := 0, uniqueFlag := false } =
      VRes.ok { ct := [], stack := [.i32], qstack := [], ops2 := [], rgn_vars := [],
                fresh := 0, uniqueFlag := false } from rfl] at h
  exact VRes.noConfusion h

/-- C6 (amended): in both region-quantifier instantiation sites — the `App`
opcode and `call`'s quantifier peeling — the escape check fails with a
region-access error (carrying the argument region) exactly when the
quantifier's BOUND region variable is unique and the argument's id occurs
in the captured-region list; the argument's own uniqueness is not
consulted. -/
theorem C6_uniqueness_condition_on_binder
    (rho : List (Id × Region) → List (Id × Region)) (types : List (Nat × Ty))
    (label pos : Nat) (rarg rv : Region) (body : Ty) (captured : List Region)
    (ctrest : List CTStackVal) (strest : List Ty) (q : List Quantification)
    (o : List Op2) (rvs : List Region) (f : Nat) (u : Bool) :
    exec_op rho types label pos .app
        { ct := .region rarg :: ctrest,
          stack := .forallRegion rv body captured :: strest,
          qstack := q, ops2 := o, rgn_vars := rvs, fresh := f, uniqueFlag := u } =
      (if rv.unique && captured.any (fun r2 => rarg.id == r2.id) then
        .err (.regionAccessError pos .app rarg)
      else
        .ok { ct := ctrest,
              stack := substitute_t rho [] [(rv.id, rarg)] body :: strest,
              qstack := q, ops2 := o, rgn_vars := rvs, fresh := f, uniqueFlag := u }) ∧
    handle_call rho pos (.forallRegion rv body captured) strest (.region rarg :: ctrest) =
      (if rv.unique && captured.any (fun r2 => r2.id == rarg.id) then
        .error (.regionAccessError pos .call rarg)
      else handle_call rho pos (substitute_t rho [] [(rv.id, rarg)] body) strest ctrest) ∧
    (exec_op rho types label pos .app
        { ct := .region rarg :: ctrest,
          stack := .forallRegion rv body captured :: strest,
          qstack := q, ops2 := o, rgn_vars := rvs, fresh := f, uniqueFlag := u } =
      .err (.regionAccessError pos .app rarg) ↔
        rv.unique = true ∧ captured.any (fun r2 => rarg.id == r2.id) = true) := by
  refine ⟨rfl, rfl, ?_⟩
  constructor
  · intro h
    by_cases hc : (rv.unique && captured.any (fun r2 => rarg.id == r2.id)) = true
    · exact ⟨(Bool.and_eq_true _ _ ▸ hc).1, (Bool.and_eq_true _ _ ▸ hc).2⟩
    · rw [show exec_op rho types label pos .app
            { ct := .region rarg :: ctrest,
              stack := .forallRegion rv body captured :: strest,
              qstack := q, ops2 := o, rgn_vars := rvs, fresh := f, uniqueFlag := u } =
          (if rv.unique && captured.any (fun r2 => rarg.id == r2.id) then
            .err (.regionAccessError pos .app rarg)
          else
            .ok { ct := ctrest,
                  stack := substitute_t rho [] [(rv.id, rarg)] body :: strest,
                  qstack := q, ops2 := o, rgn_vars := rvs, fresh := f,
                  uniqueFlag := u }) from rfl, if_neg hc] at h
      exact VRes.noConfusion h
  · intro ⟨h1, h2⟩
    have hc : (rv.unique && captured.any (fun r2 => rarg.id == r2.id)) = true := by
      rw [h1, h2]
      rfl
    rw [show exec_op rho types label pos .app
          { ct := .region rarg :: ctrest,
            stack := .forallRegion rv body captured :: strest,
            qstack := q, ops2 := o, rgn_vars := rvs, fresh := f, uniqueFlag := u } =
        (if rv.unique && captured.any (fun r2 => rarg.id == r2.id) then
          .err (.regionAccessError pos .app rarg)
        else
          .ok { ct := ctrest,
                stack := substitute_t rho [] [(rv.id, rarg)] body :: strest,
                qstack := q, ops2 := o, rgn_vars := rvs, fresh := f,
                uniqueFlag := u }) from rfl, if_pos hc]

/-- C7: the claim fails on the code in the pointer case.  The container is a
pointer to a tuple whose component 0 is already initialized, but the
pointer's region is not among the live region variables: `init 0` fails
with a region-access error, not with the double-init error the claim
requires for every already-initialized component. -/
theorem C7_region_error_precedes_double_init :
    exec_op (fun l => l) [] 0 7 (.init 0)
        { ct := [],
          stack := [.i32, .ptr (.tuple [(true, .i32)]) { unique := false, id := ⟨2, 2⟩ }],
          qstack := [], ops2 := [], rgn_vars := [], fresh := 0, uniqueFlag := false } =
      .err (.regionAccessError 7 (.init 0) { unique := false, id := ⟨2, 2⟩ }) ∧
    exec_op (fun l => l) [] 0 7 (.init 0)
        { ct := [],
          stack := [.i32, .ptr (.tuple [(true, .i32)]) { unique := false, id := ⟨2, 2⟩ }],
          qstack := [], ops2 := [], rgn_vars := [], fresh := 0, uniqueFlag := false } ≠
      .err (.typeErrorDoubleInit 7 (.init 0) 0) := by
  refine ⟨rfl, ?_⟩
  intro h
  rw [show exec_op (fun l => l) [] 0 7 (.init 0)
        { ct := [],
          stack := [.i32, .ptr (.tuple [(true, .i32)]) { unique := false, id := ⟨2, 2⟩ }],
          qstack := [], ops2 := [], rgn_vars := [], fresh := 0, uniqueFlag := false } =
      VRes.err (.regionAccessError 7 (.init 0) { unique := false, id := ⟨2, 2⟩ }) from rfl] at h
  injection h with h2
  exact Error.noConfusion h2

/-- C7 (amended): `init i` fails with the double-init error (carrying the
position and the index) whenever the container is a direct tuple whose i-th
component is initialized, or a pointer to such a tuple WHOSE REGION'S ID
OCCURS AMONG THE LIVE REGION VARIABLES (otherwise a region-access error
fires first); when the i-th component is un-initialized and the popped
value's type is alpha-equivalent to the declared type, the component is
replaced by `(true, value-type)` and the updated container is pushed back,
emitting `Init` (direct) or `InitIP` (pointer). -/
theorem C7_init_double_init_and_update
    (rho : List (Id × Region) → List (Id × Region)) (types : List (Nat × Ty))
    (label pos i : Nat) (v : Ty) (cts : List (Bool × Ty)) (r : Region)
    (rest : List Ty) (ctv : List CTStackVal) (q : List Quantification)
    (o : List Op2) (rvs : List Region) (f : Nat) (u : Bool) :
    (∀ t0, cts.get? i = some (true, t0) →
      exec_op rho types label pos (.init i)
          { ct := ctv, stack := v :: .tuple cts :: rest, qstack := q, ops2 := o,
            rgn_vars := rvs, fresh := f, uniqueFlag := u } =
        .err (.typeErrorDoubleInit pos (.init i) i)) ∧
    (rvs.all (fun r2 => r.id != r2.id) = false →
      ∀ t0, cts.get? i = some (true, t0) →
      exec_op rho types label pos (.init i)
          { ct := ctv, stack := v :: .ptr (.tuple cts) r :: rest, qstack := q, ops2 := o,
            rgn_vars := rvs, fresh := f, uniqueFlag := u } =
        .err (.typeErrorDoubleInit pos (.init i) i)) ∧
    (∀ formal, cts.get? i = some (false, formal) → type_eq rho formal v = true →
      exec_op rho types label pos (.init i)
          { ct := ctv, stack := v :: .tuple cts :: rest, qstack := q, ops2 := o,
            rgn_vars := rvs, fresh := f, uniqueFlag := u } =
        .ok { ct := ctv, stack := .tuple (cts.set i (true, v)) :: rest, qstack := q,
              ops2 := o ++ [.init (((cts.take i).map (fun p => p.2.size)).sum) v.size
                              ((cts.map (fun p => p.2.size)).sum)],
              rgn_vars := rvs, fresh := f, uniqueFlag := u }) ∧
    (rvs.all (fun r2 => r.id != r2.id) = false →
      ∀ formal, cts.get? i = some (false, formal) → type_eq rho formal v = true →
      exec_op rho types label pos (.init i)
          { ct := ctv, stack := v :: .ptr (.tuple cts) r :: rest, qstack := q, ops2 := o,
            rgn_vars := rvs, fresh := f, uniqueFlag := u } =
        .ok { ct := ctv, stack := .ptr (.tuple (cts.set i (true, v))) r :: rest, qstack := q,
              ops2 := o ++ [.initIP (((cts.take i).map (fun p => p.2.size)).sum) v.size],
              rgn_vars := rvs, fresh := f, uniqueFlag := u }) := by
  refine ⟨?_, ?_, ?_, ?_⟩
  · intro t0 h
    rw [List.get?_eq_getElem?] at h
    simp [exec_op, init_step, init_f, h]
  · intro hlive t0 h
    rw [List.get?_eq_getElem?] at h
    simp [exec_op, init_step, init_f, h, hlive]
  · intro formal h hteq
    rw [List.get?_eq_getElem?] at h
    simp [exec_op, init_step, init_f, h, hteq]
  · intro hlive formal h hteq
    rw [List.get?_eq_getElem?] at h
    simp [exec_op, init_step, init_f, h, hteq, hlive]

/-- C7 (witness): the double-init branch and the successful-update branch of
the amended theorem at concrete inputs. -/
theorem C7_init_double_init_and_update_witness :
    exec_op (fun l => l) [] 0 7 (.init 0)
        { ct := [], stack := [.i32, .tuple [(true, .i32)]], qstack := [], ops2 := [],
          rgn_vars := [], fresh := 0, uniqueFlag := false } =
      .err (.typeErrorDoubleInit 7 (.init 0) 0) ∧
    exec_op (fun l => l) [] 0 8 (.init 0)
        { ct := [], stack := [.i32, .tuple [(false, .i32)]], qstack := [], ops2 := [],
          rgn_vars := [], fresh := 0, uniqueFlag := false } =
      .ok { ct := [], stack := [.tuple [(true, .i32)]], qstack := [],
            ops2 := [.init 0 1 1], rgn_vars := [], fresh := 0, uniqueFlag := false } :=
  ⟨(C7_init_double_init_and_update (fun l => l) [] 0 7 0 .i32 [(true, .i32)]
      { unique := false, id := ⟨0, 0⟩ } [] [] [] [] [] 0 false).1 .i32 rfl,
   (C7_init_double_init_and_update (fun l => l) [] 0 8 0 .i32 [(false, .i32)]
      { unique := false, id := ⟨0, 0⟩ } [] [] [] [] [] 0 false).2.2.1 .i32 rfl rfl⟩

/-- Helper: the type-pass loop returns, on success, the starting byte
position advanced by one per opcode. -/
theorem tp_loop_pos (label : Nat) :
    ∀ (ops : List Op1) (pos : Nat) (ct : List CTStackVal) (qs : List Quantification)
      (fresh : Nat) (u : Bool)
      (res : List CTStackVal × List Quantification × Nat × Bool × Nat),
      tp_loop label ops pos ct qs fresh u = .ok res → res.2.2.2.2 = pos + ops.length := by
  intro ops
  induction ops with
  | nil =>
      intro pos ct qs fresh u res h
      simp only [tp_loop] at h
      cases h
      rfl
  | cons op rest ih =>
      intro pos ct qs fresh u res h
      simp only [tp_loop] at h
      cases htp : tp_step label pos op ct qs fresh u with
      | ok v =>
          obtain ⟨ct2, q2, f2, u2⟩ := v
          simp only [htp] at h
          have hr := ih (pos + 1) ct2 q2 f2 u2 res h
          rw [hr]
          simp
          omega
      | err e =>
          simp only [htp] at h
          exact VRes.noConfusion h
      | crash =>
          simp only [htp] at h
          exact VRes.noConfusion h

/-- C8: the claim fails on the code.  In this two-function program the
second function (label 7) is the FIRST to mint any variable, yet its
signature binds `Id(7, 1)` rather than `Id(7, 0)`: `go` threads the value
returned by each `type_pass` — which is that function's final byte
position — into the next function's counter instead of resetting it. -/
theorem C8_counter_threaded_not_reset :
    go (fun l => l)
        [ForwardDec.func 0 [.i32],
         ForwardDec.func 7 [.size 1, .all, .ctGet 0, .func 1, .end_]]
        [Stmt1.func 7 []] =
      .ok [Stmt2.func 7 (.forall_ ⟨7, 1⟩ 1 (.func [.var ⟨7, 1⟩ 1])) []] ∧
    (⟨7, 1⟩ : Id) ≠ (⟨7, 0⟩ : Id) := by
  refine ⟨rfl, ?_⟩
  intro h
  cases h

/-- C8 (amended): the fresh-variable counter is threaded, not per-function:
a successful `type_pass` of a function with label `l` and `n` opcodes
returns, as the next counter value, its final byte position `l + n` —
dependent on the byte count, not reset to zero — and `go` feeds that value
to the next function's pass. -/
theorem C8_type_pass_returns_byte_position (l : Nat) (ops : List Op1) (c : Nat)
    (l2 : Nat) (t : Ty) (c2 : Nat)
    (h : type_pass (ForwardDec.func l ops) c = .ok (l2, t, c2)) :
    l2 = l ∧ c2 = l + ops.length := by
  simp only [type_pass] at h
  cases hl : tp_loop l ops l [] [] c false with
  | ok v =>
      obtain ⟨ct, q, f, u, pos⟩ := v
      simp only [hl] at h
      have hpos := tp_loop_pos l ops l [] [] c false (ct, q, f, u, pos) hl
      simp only at hpos
      split at h
      next t' =>
          injection h with hv
          rw [Prod.mk.injEq] at hv
          obtain ⟨h1, hv2⟩ := hv
          rw [Prod.mk.injEq] at hv2
          obtain ⟨h2, h3⟩ := hv2
          exact ⟨h1.symm, by rw [← h3, hpos]⟩
      next => exact VRes.noConfusion h
  | err e =>
      simp only [hl] at h
      exact VRes.noConfusion h
  | crash =>
      simp only [hl] at h
      exact VRes.noConfusion h

/-- C8 (witness): the amended theorem applied to a one-opcode function with
label 3 run with counter 5: the returned counter is the byte position 4 =
3 + 1, not a reset value. -/
theorem C8_type_pass_returns_byte_position_witness :
    type_pass (ForwardDec.func 3 [.i32]) 5 = .ok (3, .i32, 4) ∧
    (3 : Nat) = 3 ∧ (4 : Nat) = 3 + [Op1.i32].length :=
  ⟨rfl, C8_type_pass_returns_byte_position 3 [.i32] 5 3 .i32 4 rfl⟩

/-- C3: `get(i)` with `|stack| > i` copies the i-th-from-top type onto the
top and emits `Get(offset, size)` with `offset` the sum of the sizes of the
`i` elements above the copied one and `size` the copied element's size;
with `|stack| <= i` it fails with the empty-stack error (empty stack) or
the get-out-of-range error (otherwise). -/
theorem C3_get_bounds_and_layout
    (rho : List (Id × Region) → List (Id × Region)) (types : List (Nat × Ty))
    (label pos i : Nat) (s : DPState) :
    (i < s.stack.length →
      ∃ t, s.stack.get? i = some t ∧
        exec_op rho types label pos (.get i) s =
          .ok { s with stack := t :: s.stack,
                       ops2 := s.ops2 ++ [.get (((s.stack.take i).map Ty.size).sum) t.size] }) ∧
    (s.stack.length = 0 →
      exec_op rho types label pos (.get i) s =
        .err (.typeErrorEmptyStack pos (.get i))) ∧
    (0 < s.stack.length → s.stack.length ≤ i →
      exec_op rho types label pos (.get i) s =
        .err (.typeErrorGetOutOfRange pos i s.stack.length)) := by
  refine ⟨?_, ?_, ?_⟩
  · intro hi
    have hlen0 : ¬ (s.stack.length = 0) := by omega
    have hrange : ¬ (s.stack.length - 1 < i) := by omega
    refine ⟨s.stack.get ⟨i, hi⟩, List.get?_eq_get hi, ?_⟩
    simp only [exec_op, get_step]
    rw [if_neg hlen0, if_neg hrange, List.get?_eq_get hi]
  · intro hz
    simp only [exec_op, get_step]
    rw [if_pos hz]
  · intro hpos0 hle
    have hlen0 : ¬ (s.stack.length = 0) := by omega
    have hrange : s.stack.length - 1 < i := by omega
    simp only [exec_op, get_step]
    rw [if_neg hlen0, if_pos hrange]

/-- C3 (witness): both branches of the layout theorem at concrete inputs. -/
theorem C3_get_bounds_and_layout_witness :
    (∃ t, [Ty.i32, Ty.handle { unique := false, id := ⟨0, 0⟩ }].get? 1 = some t ∧
      exec_op (fun l => l) [] 0 4 (.get 1)
          { ct := [], stack := [Ty.i32, Ty.handle { unique := false, id := ⟨0, 0⟩ }],
            qstack := [], ops2 := [], rgn_vars := [], fresh := 0, uniqueFlag := false } =
        .ok { ct := [],
              stack := t :: [Ty.i32, Ty.handle { unique := false, id := ⟨0, 0⟩ }],
              qstack := [],
              ops2 := [] ++ [.get ((([Ty.i32,
                        Ty.handle { unique := false, id := ⟨0, 0⟩ }].take 1).map Ty.size).sum)
                        t.size],
              rgn_vars := [], fresh := 0, uniqueFlag := false }) ∧
    exec_op (fun l => l) [] 0 4 (.get 5)
        { ct := [], stack := [Ty.i32], qstack := [], ops2 := [], rgn_vars := [],
          fresh := 0, uniqueFlag := false } =
      .err (.typeErrorGetOutOfRange 4 5 1) :=
  ⟨(C3_get_bounds_and_layout (fun l => l) [] 0 4 1
      { ct := [], stack := [Ty.i32, Ty.handle { unique := false, id := ⟨0, 0⟩ }],
        qstack := [], ops2 := [], rgn_vars := [], fresh := 0, uniqueFlag := false }).1
      (by decide),
   (C3_get_bounds_and_layout (fun l => l) [] 0 4 5
      { ct := [], stack := [Ty.i32], qstack := [], ops2 := [], rgn_vars := [],
        fresh := 0, uniqueFlag := false }).2.2 (by decide) (by decide)⟩

/-- C9: `ct_get(i)` with `i` at least the compile-time stack height returns
the out-of-range arity error (the `usize` underflow in the index wraps in
release builds, landing far beyond any realizable stack length, so `get`
yields `None` and the error path is taken — no panic); with `i` below the
height it copies the i-th-from-top slot onto the top. -/
theorem C9_ctget_in_and_out_of_range (pos i : Nat) (ct : List CTStackVal)
    (hi : i < 2 ^ 8) (hlen : ct.length < 2 ^ 63) :
    (ct.length ≤ i →
      handle_ctget pos i ct = .error (.typeErrorCTGetOutOfRange pos i ct.length)) ∧
    (i < ct.length →
      ∃ v, ct.get? i = some v ∧ handle_ctget pos i ct = .ok (v :: ct)) := by
  constructor
  · intro hle
    have h1 : (((ct.length : Int) - 1 - (i : Int)) % (2 ^ 64)) =
        (ct.length : Int) - 1 - (i : Int) + 2 ^ 64 := by
      have h2 : (((ct.length : Int) - 1 - (i : Int) + 2 ^ 64) % (2 ^ 64)) =
          (((ct.length : Int) - 1 - (i : Int)) % (2 ^ 64)) := by
        have h3 := Int.add_mul_emod_self_left
          ((ct.length : Int) - 1 - (i : Int)) (2 ^ 64) 1
        rw [mul_one] at h3
        exact h3
      rw [← h2]
      exact Int.emod_eq_of_lt (by omega) (by omega)
    simp only [handle_ctget, h1]
    have hbig : ¬ ((((ct.length : Int) - 1 - (i : Int) + 2 ^ 64)).toNat < ct.length) := by
      omega
    rw [vecGet, if_neg hbig]
  · intro hlt
    have h1 : (((ct.length : Int) - 1 - (i : Int)) % (2 ^ 64)) =
        (ct.length : Int) - 1 - (i : Int) := by
      exact Int.emod_eq_of_lt (by omega) (by omega)
    have h2 : (((ct.length : Int) - 1 - (i : Int))).toNat = ct.length - 1 - i := by
      omega
    refine ⟨ct.get ⟨i, hlt⟩, List.get?_eq_get hlt, ?_⟩
    simp only [handle_ctget, h1, h2]
    have hin : ct.length - 1 - i < ct.length := by omega
    rw [vecGet, if_pos hin]
    have hix : ct.length - 1 - (ct.length - 1 - i) = i := by omega
    rw [hix, List.get?_eq_get hlt]

/-! Determinism (C10).  The only iteration over a hash map in `verify.rs`
is `for (_, r) in rsubs` inside `substitute_t`'s `ForallRegion` case; its
order is the enumeration-oracle parameter `rho`.  Two runs of the verifier
differ at most in their oracles, and any two valid oracles (those returning
a permutation of the entries) agree on every environment the verifier ever
builds — all of which are empty or one-entry maps — so the runs coincide. -/

/-- A valid enumeration oracle maps the empty map to the empty enumeration. -/
theorem oracle_nil {rho : List (Id × Region) → List (Id × Region)}
    (h : ∀ l, List.Perm (rho l) l) : rho [] = [] :=
  (h []).eq_nil

/-- A valid enumeration oracle enumerates a one-entry map as that entry. -/
theorem oracle_singleton {rho : List (Id × Region) → List (Id × Region)}
    (h : ∀ l, List.Perm (rho l) l) (p : Id × Region) : rho [p] = [p] :=
  List.perm_singleton.mp (h [p])

mutual
/-- Substitution output depends on the oracle only through the enumeration
of the one region environment in play. -/
theorem substitute_t_oc (rho rho' : List (Id × Region) → List (Id × Region))
    (ts : List (Id × Ty)) (rs : List (Id × Region)) (hE : rho rs = rho' rs) :
    ∀ t, substitute_t rho ts rs t = substitute_t rho' ts rs t
  | .i32 => rfl
  | .handle r => rfl
  | .tuple l => congrArg Ty.tuple (substitute_t_pairs_oc rho rho' ts rs hE l)
  | .ptr t r =>
      congrArg (fun x => Ty.ptr x (substitute_r rs r)) (substitute_t_oc rho rho' ts rs hE t)
  | .var id repr => rfl
  | .func args => congrArg Ty.func (substitute_t_list_oc rho rho' ts rs hE args)
  | .exists_ id s t => congrArg (Ty.exists_ id s) (substitute_t_oc rho rho' ts rs hE t)
  | .forall_ id s t => congrArg (Ty.forall_ id s) (substitute_t_oc rho rho' ts rs hE t)
  | .forallRegion rv t cap => by
      have h1 := substitute_t_oc rho rho' ts rs hE t
      show Ty.forallRegion rv (substitute_t rho ts rs t)
          (cap ++ (((rho rs).filter (fun p => p.2.unique)).map (fun p => p.2))) =
        Ty.forallRegion rv (substitute_t rho' ts rs t)
          (cap ++ (((rho' rs).filter (fun p => p.2.unique)).map (fun p => p.2)))
      rw [h1, hE]

/-- Oracle-congruence through a tuple component list. -/
theorem substitute_t_pairs_oc (rho rho' : List (Id × Region) → List (Id × Region))
    (ts : List (Id × Ty)) (rs : List (Id × Region)) (hE : rho rs = rho' rs) :
    ∀ l, substitute_t_pairs rho ts rs l = substitute_t_pairs rho' ts rs l
  | [] => rfl
  | (b, t) :: rest => by
      show (b, substitute_t rho ts rs t) :: substitute_t_pairs rho ts rs rest =
        (b, substitute_t rho' ts rs t) :: substitute_t_pairs rho' ts rs rest
      rw [substitute_t_oc rho rho' ts rs hE t, substitute_t_pairs_oc rho rho' ts rs hE rest]

/-- Oracle-congruence through a function argument list. -/
theorem substitute_t_list_oc (rho rho' : List (Id × Region) → List (Id × Region))
    (ts : List (Id × Ty)) (rs : List (Id × Region)) (hE : rho rs = rho' rs) :
    ∀ l, substitute_t_list rho ts rs l = substitute_t_list rho' ts rs l
  | [] => rfl
  | t :: rest => by
      show substitute_t rho ts rs t :: substitute_t_list rho ts rs rest =
        substitute_t rho' ts rs t :: substitute_t_list rho' ts rs rest
      rw [substitute_t_oc rho rho' ts rs hE t, substitute_t_list_oc rho rho' ts rs hE rest]
end

/-- Alpha-equivalence depends on the oracle only through its values on the
empty and one-entry environments (the only ones `type_eq` ever builds). -/
theorem type_eq_oc (rho rho' : List (Id × Region) → List (Id × Region))
    (hn : rho [] = rho' []) (hs1 : ∀ p, rho [p] = rho' [p]) :
    ∀ t1 t2, type_eq rho t1 t2 = type_eq rho' t1 t2 := by
  have hsub : ∀ (ts : List (Id × Ty)) (rs : List (Id × Region)), rho rs = rho' rs →
      ∀ t, substitute_t rho ts rs t = substitute_t rho' ts rs t :=
    fun ts rs hE => substitute_t_oc rho rho' ts rs hE
  refine type_eq.induct rho
    (fun t1 t2 => type_eq rho t1 t2 = type_eq rho' t1 t2)
    (fun l1 l2 => func_args_eq rho l1 l2 = func_args_eq rho' l1 l2)
    (fun l1 l2 => tuple_components_eq rho l1 l2 = tuple_components_eq rho' l1 l2)
    ?_ ?_ ?_ ?_ ?_ ?_ ?_ ?_ ?_ ?_ ?_ ?_ ?_ ?_ ?_
  · rfl
  · intro r1 r2
    rfl
  · intro ts1 ts2 ih
    simp only [type_eq, ih]
  · intro t1 r1 t2 r2 ih
    simp only [type_eq, ih]
  · intro id1 repr1 id2 repr2
    rfl
  · intro ts1 ts2 ih
    simp only [type_eq, ih]
  · intro id1 repr1 t1 id2 repr2 t2 ih
    simp only [type_eq]
    rw [ih, hsub [(id2, Ty.var id1 repr1)] [] hn t2]
  · intro id1 size1 body1 id2 size2 body2 ih
    simp only [type_eq]
    rw [ih, hsub [(id2, Ty.var id1 size1)] [] hn body2]
  · intro r1 body1 cap r2 body2 cap1 ih
    simp only [type_eq]
    rw [ih, hsub [] [(r2.id, r1)] (hs1 _) body2]
  · intro t x h1 h2 h3 h4 h5 h6 h7 h8 h9
    cases t <;> cases x <;> try rfl
    · exact (h3 _ _ rfl rfl).elim
    · exact (h4 _ _ _ _ rfl rfl).elim
    · exact (h6 _ _ rfl rfl).elim
    · exact (h7 _ _ _ _ _ _ rfl rfl).elim
    · exact (h8 _ _ _ _ _ _ rfl rfl).elim
    · exact (h9 _ _ _ _ _ _ rfl rfl).elim
  · intro x
    rfl
  · intro hd tl
    rfl
  · intro b1 t1 r1 b2 t2 r2 ih1 ih2
    simp only [tuple_components_eq, ih1, ih2]
  · intro t1 r1 t2 r2 ih1 ih2
    simp only [func_args_eq, ih1, ih2]
  · intro t x h
    cases t <;> cases x <;> try rfl
    exact (h _ _ _ _ rfl rfl).elim

/-- Oracle-congruence of substitution with an empty region environment. -/
theorem substitute_t_nil_oc (rho rho' : List (Id × Region) → List (Id × Region))
    (hn : rho [] = rho' []) :
    ∀ (ts : List (Id × Ty)) (t : Ty),
      substitute_t rho ts [] t = substitute_t rho' ts [] t :=
  fun ts t => substitute_t_oc rho rho' ts [] hn t

/-- Oracle-congruence of substitution with a one-entry region environment. -/
theorem substitute_t_single_oc (rho rho' : List (Id × Region) → List (Id × Region))
    (hs1 : ∀ p, rho [p] = rho' [p]) :
    ∀ (ts : List (Id × Ty)) (p : Id × Region) (t : Ty),
      substitute_t rho ts [p] t = substitute_t rho' ts [p] t :=
  fun ts p t => substitute_t_oc rho rho' ts [p] (hs1 p) t

/-- Oracle-congruence of the call argument comparison. -/
theorem argsMatch_oc (rho rho' : List (Id × Region) → List (Id × Region))
    (hn : rho [] = rho' []) (hs1 : ∀ p, rho [p] = rho' [p]) :
    ∀ l1 l2, argsMatch rho l1 l2 = argsMatch rho' l1 l2 := by
  intro l1
  induction l1 with
  | nil =>
      intro l2
      cases l2 <;> rfl
  | cons t1 r1 ih =>
      intro l2
      cases l2 with
      | nil => rfl
      | cons t2 r2 =>
          simp only [argsMatch, type_eq_oc rho rho' hn hs1 t1 t2, ih r2]

/-- Oracle-congruence of `handle_call`. -/
theorem handle_call_oc (rho rho' : List (Id × Region) → List (Id × Region))
    (hn : rho [] = rho' []) (hs1 : ∀ p, rho [p] = rho' [p]) :
    ∀ (ct : List CTStackVal) (t : Ty) (stack : List Ty) (pos : Nat),
      handle_call rho pos t stack ct = handle_call rho' pos t stack ct := by
  intro ct
  induction ct with
  | nil =>
      intro t stack pos
      cases t <;> try rfl
      case func args =>
        simp only [handle_call, argsMatch_oc rho rho' hn hs1]
  | cons c rest ih =>
      intro t stack pos
      cases t <;> try rfl
      case func args =>
        simp only [handle_call, argsMatch_oc rho rho' hn hs1]
      case forall_ var size body =>
        cases c with
        | type targ =>
            simp only [handle_call, substitute_t_nil_oc rho rho' hn, ih]
        | region r => rfl
        | size s => rfl
      case forallRegion var body captured =>
        cases c with
        | type targ => rfl
        | region r =>
            simp only [handle_call, substitute_t_single_oc rho rho' hs1, ih]
        | size s => rfl

/-- Oracle-congruence of one body-pass opcode step. -/
theorem exec_op_oc (rho rho' : List (Id × Region) → List (Id × Region))
    (hn : rho [] = rho' []) (hs1 : ∀ p, rho [p] = rho' [p])
    (types : List (Nat × Ty)) (label pos : Nat) (op : Op1) (s : DPState) :
    exec_op rho types label pos op s = exec_op rho' types label pos op s := by
  cases op <;> try rfl
  case app =>
    simp only [exec_op, app_step, substitute_t_nil_oc rho rho' hn,
      substitute_t_single_oc rho rho' hs1]
  case init i =>
    simp only [exec_op, init_step, init_f, type_eq_oc rho rho' hn hs1]
  case call =>
    simp only [exec_op, call_step, handle_call_oc rho rho' hn hs1]
  case pack =>
    simp only [exec_op, pack_step, substitute_t_nil_oc rho rho' hn,
      type_eq_oc rho rho' hn hs1]

/-- Oracle-congruence of the body-pass loop. -/
theorem run_ops_oc (rho rho' : List (Id × Region) → List (Id × Region))
    (hn : rho [] = rho' []) (hs1 : ∀ p, rho [p] = rho' [p])
    (types : List (Nat × Ty)) (label : Nat) :
    ∀ (ops : List Op1) (pos : Nat) (s : DPState),
      run_ops rho types label ops pos s = run_ops rho' types label ops pos s := by
  intro ops
  induction ops with
  | nil =>
      intro pos s
      rfl
  | cons op rest ih =>
      intro pos s
      simp only [run_ops, exec_op_oc rho rho' hn hs1 types label pos op s, ih]

/-- Oracle-congruence of `definition_pass`. -/
theorem definition_pass_oc (rho rho' : List (Id × Region) → List (Id × Region))
    (hn : rho [] = rho' []) (hs1 : ∀ p, rho [p] = rho' [p])
    (types : List (Nat × Ty)) (stmt : Stmt1) (fresh : Nat) :
    definition_pass rho types stmt fresh = definition_pass rho' types stmt fresh := by
  obtain ⟨label, ops⟩ := stmt
  simp only [definition_pass, run_ops_oc rho rho' hn hs1 types label]

/-- Oracle-congruence of the body phase of `go`. -/
theorem go_defs_oc (rho rho' : List (Id × Region) → List (Id × Region))
    (hn : rho [] = rho' []) (hs1 : ∀ p, rho [p] = rho' [p])
    (types : List (Nat × Ty)) (fresh : Nat) :
    ∀ stmts, go_defs rho types fresh stmts = go_defs rho' types fresh stmts := by
  intro stmts
  induction stmts with
  | nil => rfl
  | cons st rest ih =>
      simp only [go_defs, definition_pass_oc rho rho' hn hs1 types st fresh, ih]

/-- C10: the verifier is deterministic.  The signature phase contains no
substitution; every substitution environment the body phase builds is empty
or a singleton; two verification runs, modelled as two arbitrary valid
enumeration orders for the hash-map substitution environments, therefore
produce identical results — the same elaborated program or the same
error. -/
theorem C10_verifier_deterministic
    (rho rho' : List (Id × Region) → List (Id × Region))
    (h : ∀ l, List.Perm (rho l) l) (h' : ∀ l, List.Perm (rho' l) l)
    (tds : List ForwardDec) (stmts : List Stmt1) :
    go rho tds stmts = go rho' tds stmts := by
  have hn : rho [] = rho' [] := by
    rw [oracle_nil h, oracle_nil h']
  have hs1 : ∀ p, rho [p] = rho' [p] := by
    intro p
    rw [oracle_singleton h p, oracle_singleton h' p]
  simp only [go, go_defs_oc rho rho' hn hs1]

/-- C10 (witness): the determinism theorem applied to a concrete program
and the two concrete valid enumeration orders `id` and `reverse`. -/
theorem C10_verifier_deterministic_witness :
    go (fun l => l) [ForwardDec.func 0 [.i32]] [] =
      go (fun l => List.reverse l) [ForwardDec.func 0 [.i32]] [] :=
  C10_verifier_deterministic (fun l => l) (fun l => List.reverse l)
    (fun l => List.Perm.refl l) (fun l => List.reverse_perm l)
    [ForwardDec.func 0 [.i32]] []

/-- C9 (witness): both branches at concrete inputs. -/
theorem C9_ctget_in_and_out_of_range_witness :
    handle_ctget 1 2 [.size 0] = .error (.typeErrorCTGetOutOfRange 1 2 1) ∧
    ∃ v, [CTStackVal.size 5].get? 0 = some v ∧
      handle_ctget 1 0 [.size 5] = .ok (v :: [.size 5]) :=
  ⟨(C9_ctget_in_and_out_of_range 1 2 [.size 0] (by decide) (by decide)).1 (by decide),
   (C9_ctget_in_and_out_of_range 1 0 [.size 5] (by decide) (by decide)).2 (by decide)⟩

end SaberVM
